import Mathlib

/-!
Verification of the Linktree profile crawler.

The program (Go, `main.go` of the crawler) fetches a single Linktree profile
page, extracts typed fields out of the markup with five fixed selector rules,
validates that the two mandatory fields are non-empty, serializes the record
to a pretty-printed JSON file named after the extracted profile name, and then
(if a profile image URL was extracted) downloads the image to a file named
after the command-line identifier.

Embedding choices:

* A parsed document is modelled as the list, in document order, of the nodes
  matched by one of the five selector rules, each constructor carrying exactly
  the text/attribute data the corresponding callback reads
  (`head > title` text, `a[data-testid='LinkButton']` label and href,
  `a[data-testid='SocialIcon']` title attribute and href,
  `div[id='profile-title']` text, `img[data-testid="ProfileImage"]` src).
  The selector engine (colly) is an external collaborator; the callbacks run
  once per matched node in document order, which is exactly a left fold.

* Go maps (`map[string]string`) are unordered; we represent a map value by
  its canonical strictly-key-sorted association list (`KeysSorted`), which is
  also the key order `encoding/json` emits (it sorts map keys when
  marshalling).  A `nil` Go map is distinct from an empty one (`nil` marshals
  to `null`, an initialized empty map to an empty object), so map-valued
  struct fields are `Option (List (String × String))`, `none` standing for
  the Go zero value `nil`.

* Network and filesystem effects are abstracted by booleans saying whether
  the page visit, the JSON write and the image download succeed; the observable
  outcome of `main` is the set of files it writes.
-/

namespace Linktree

/-- The `Result` struct of the crawler: crawled information from the Linktree
page.  Field order and JSON tags follow the Go declaration:
`Links "links"`, `IconLinks "icon_links"`, `Title "title"`,
`ProfileName "profile_name"`, `ProfileImg "profile_img"`. -/
structure Result where
  Links : Option (List (String × String))
  IconLinks : Option (List (String × String))
  Title : String
  ProfileName : String
  ProfileImg : String
deriving DecidableEq, Repr

/-- The Go zero value `Result\x7b\x7d`: empty strings and `nil` (uninitialized)
maps; returned alongside every error of `crawlLinktreeProfile`. -/
def zeroResult : Result := ⟨none, none, "", "", ""⟩

/-- The record as initialized at the start of `crawlLinktreeProfile`:
`result.Links = make(map[string]string)` and
`result.IconLinks = make(map[string]string)`, scalar fields at their zero
value. -/
def initResult : Result := ⟨some [], some [], "", "", ""⟩

/-- A node of the parsed document matched by one of the five selector rules,
carrying the data the corresponding `OnHTML` callback reads. -/
inductive Node where
  /-- A `head > title` node; carries `e.Text`. -/
  | titleNode (text : String)
  /-- An `a[data-testid='LinkButton']` node; carries
  `e.ChildText("div > p")` and `e.Attr("href")`. -/
  | linkButton (label href : String)
  /-- An `a[data-testid='SocialIcon']` node; carries
  `e.ChildAttr("title", "title")` and `e.Attr("href")`. -/
  | socialIcon (iconTitle href : String)
  /-- A `div[id='profile-title']` node; carries `e.Text`. -/
  | profileTitle (text : String)
  /-- An `img[data-testid="ProfileImage"]` node; carries `e.Attr("src")`. -/
  | profileImage (src : String)
deriving DecidableEq, Repr

/-- Lexicographic strict order on character lists by code point.  On valid
UTF-8 this coincides with Go's byte-wise string comparison, the order
`sort.Strings` and `encoding/json`'s key sorting use. -/
def listLtChar : List Char → List Char → Bool
  | [], [] => false
  | [], _ :: _ => true
  | _ :: _, [] => false
  | a :: as, b :: bs =>
      if a.toNat < b.toNat then true
      else if b.toNat < a.toNat then false
      else listLtChar as bs

/-- Go's string comparison `a < b` (byte-wise lexicographic). -/
def strLt (a b : String) : Bool :=
  listLtChar a.toList b.toList

/-- Strictly-increasing key order: the representation invariant of the
canonical association list standing for a Go `map[string]string`. -/
def KeysSorted (m : List (String × String)) : Prop :=
  m.Pairwise (fun a b => strLt a.1 b.1 = true)

instance (m : List (String × String)) : Decidable (KeysSorted m) := by
  unfold KeysSorted
  infer_instance

/-- Go map assignment `m[k] = v` on the canonical sorted representation:
overwrite the binding of `k` if present, otherwise insert at the sorted
position. -/
def mapSet (m : List (String × String)) (k v : String) : List (String × String) :=
  match m with
  | [] => [(k, v)]
  | (k', v') :: rest =>
    if strLt k k' then (k, v) :: (k', v') :: rest
    else if k = k' then (k, v) :: rest
    else (k', v') :: mapSet rest k v

/-- Go map lookup `m[k]` (with presence bit). -/
def mapGet (m : List (String × String)) (k : String) : Option String :=
  match m with
  | [] => none
  | (k', v') :: rest => if k' = k then some v' else mapGet rest k

/-- One `OnHTML` callback firing on one matched node, updating the record in
place.  Mirrors the five registered callbacks of `crawlLinktreeProfile`:

* `"head > title"`: `result.Title = e.Text` (unconditional);
* `"a[data-testid='LinkButton']"`: `if linkText != "" && href != ""`
  then `result.Links[linkText] = href`;
* `"a[data-testid='SocialIcon']"`: `if iconName != "" && href != ""`
  then `result.IconLinks[iconName] = href`;
* `"div[id='profile-title']"`: `result.ProfileName = e.Text` (unconditional);
* `"img[data-testid=\"ProfileImage\"]"`: `if imgSrc != ""`
  then `result.ProfileImg = imgSrc`.

Assigning into a `nil` map would panic in Go; the crawler always initializes
both maps first (see the initialization invariant below), so the `Option.map`
on the map fields is never applied to `none` in any reachable state. -/
def step (r : Result) (n : Node) : Result :=
  match n with
  | .titleNode t => { r with Title := t }
  | .linkButton label href =>
      if label ≠ "" ∧ href ≠ "" then
        { r with Links := r.Links.map (fun m => mapSet m label href) }
      else r
  | .socialIcon iconTitle href =>
      if iconTitle ≠ "" ∧ href ≠ "" then
        { r with IconLinks := r.IconLinks.map (fun m => mapSet m iconTitle href) }
      else r
  | .profileTitle t => { r with ProfileName := t }
  | .profileImage src => if src ≠ "" then { r with ProfileImg := src } else r

/-- The extraction pass: all callbacks run over the matched nodes in document
order, starting from the freshly initialized record. -/
def extract (doc : List Node) : Result :=
  doc.foldl step initResult

/-- `crawlLinktreeProfile`: visit the page (the fetch either fails or yields
the parsed document `doc`), run extraction, then check the mandatory fields:
`if result.Title == "" || result.ProfileName == ""` return
`Result\x7b\x7d, errors.New(...)`.  Returns the Go pair (result, error);
`none` in the second component means a `nil` error. -/
def crawlLinktreeProfile (visitFails : Bool) (doc : List Node) :
    Result × Option String :=
  if visitFails then
    (zeroResult, some "failed to visit")
  else
    let result := extract doc
    if result.Title = "" ∨ result.ProfileName = "" then
      (zeroResult, some "failed to extract required profile information")
    else
      (result, none)

/-! ## JSON serialization

`saveResultToFile` marshals the record with
`json.MarshalIndent(result, "", "  ")` and writes the bytes to
`filepath.Join(".", fileName)`.  We model the marshalled document as a value
of an explicit JSON syntax tree (`Json`), built from the struct following its
field order and tags, and the byte output as a rendering of that tree with
the two-space indent of `MarshalIndent`.  `encoding/json` emits map keys in
sorted order, which on the canonical sorted representation is the
representation order itself; a `nil` map marshals to `null`. -/

mutual
inductive Json where
  | null : Json
  | str : String → Json
  | obj : JFields → Json
deriving DecidableEq, Repr

inductive JFields where
  | nil : JFields
  | cons : String → Json → JFields → JFields
deriving DecidableEq, Repr
end

/-- The top-level keys of a field list, in emission order. -/
def JFields.keys : JFields → List String
  | .nil => []
  | .cons k _ rest => k :: rest.keys

/-- A map value as a JSON object: one member per binding, in representation
(= sorted, the order `encoding/json` emits) order. -/
def mapToJFields : List (String × String) → JFields
  | [] => .nil
  | (k, v) :: rest => .cons k (.str v) (mapToJFields rest)

/-- A `map[string]string` struct field as JSON: `nil` marshals to `null`,
an initialized map to an object. -/
def optMapToJson : Option (List (String × String)) → Json
  | none => .null
  | some m => .obj (mapToJFields m)

/-- The JSON object members produced for a `Result`, in the struct's field
order with the struct's json tags. -/
def serializeFields (r : Result) : JFields :=
  .cons "links" (optMapToJson r.Links)
    (.cons "icon_links" (optMapToJson r.IconLinks)
      (.cons "title" (.str r.Title)
        (.cons "profile_name" (.str r.ProfileName)
          (.cons "profile_img" (.str r.ProfileImg) .nil))))

/-- The marshalled document of a `Result`. -/
def serializeJson (r : Result) : Json :=
  .obj (serializeFields r)

/-- Lower-case hex digit. -/
def hexDigit (n : Nat) : Char :=
  if n < 10 then Char.ofNat (48 + n) else Char.ofNat (87 + n)

/-- Escaping of one character inside a JSON string, as Go's `encoding/json`
encoder does it (HTML-escaping on, the `Marshal` default): quote, backslash,
`<`, `>`, `&`, the named control escapes, `\u00XX` for other control
characters, and the line-separator characters. -/
def escChar (c : Char) : String :=
  if c = '"' then "\\\""
  else if c = '\\' then "\\\\"
  else if c = '\n' then "\\n"
  else if c = '\r' then "\\r"
  else if c = '\t' then "\\t"
  else if c = '<' then "\\u003c"
  else if c = '>' then "\\u003e"
  else if c = '&' then "\\u0026"
  else if c.toNat < 32 then
    "\\u00" ++ String.singleton (hexDigit (c.toNat / 16))
      ++ String.singleton (hexDigit (c.toNat % 16))
  else if c.toNat = 8232 then "\\u2028"
  else if c.toNat = 8233 then "\\u2029"
  else String.singleton c

/-- A JSON string literal for `s`. -/
def jsonQuote (s : String) : String :=
  "\"" ++ String.join (s.toList.map escChar) ++ "\""

/-- `d` levels of the two-space indent of `MarshalIndent(result, "", "  ")`. -/
def indentN : Nat → String
  | 0 => ""
  | d + 1 => "  " ++ indentN d

mutual
/-- Rendering of a JSON value at nesting depth `d`, exactly as
`json.MarshalIndent(v, "", "  ")` lays it out: an empty object is `\x7b\x7d`
on one line, a non-empty object puts each member on its own line at depth
`d + 1` and the closing brace at depth `d`. -/
def renderJson (d : Nat) : Json → String
  | .null => "null"
  | .str s => jsonQuote s
  | .obj .nil => "\x7b\x7d"
  | .obj fs => "\x7b\n" ++ renderFields (d + 1) fs ++ "\n" ++ indentN d ++ "\x7d"

/-- Rendering of object members: `"key": value`, comma-and-newline
separated, each line starting at depth `d`. -/
def renderFields (d : Nat) : JFields → String
  | .nil => ""
  | .cons k v .nil => indentN d ++ jsonQuote k ++ ": " ++ renderJson d v
  | .cons k v rest =>
      indentN d ++ jsonQuote k ++ ": " ++ renderJson d v ++ ",\n"
        ++ renderFields d rest
end

/-- The byte output of `json.MarshalIndent(result, "", "  ")`. -/
def serialize (r : Result) : String :=
  renderJson 0 (serializeJson r)

/-! ## Deserialization

The repository never reads the JSON file back; the spec's round-trip
property refers to the inverse direction of the serialization contract.
Deserialization is therefore modelled from the spec, following Go's
`json.Unmarshal` semantics for the `Result` struct: object members are
matched to struct fields by tag, a later duplicate member overwrites an
earlier one, an absent member leaves the field at its zero value, `null`
leaves string and map fields at their current (zero) value, and an object
member unmarshalled into a `map[string]string` inserts its members into the
map in document order. -/

/-- Modelled from the spec: the value of the last member named `key`
(`json.Unmarshal` lets a later duplicate key overwrite an earlier one). -/
def jFindLast : JFields → String → Option Json
  | .nil, _ => none
  | .cons k v rest, key =>
      match jFindLast rest key with
      | some v' => some v'
      | none => if k = key then some v else none

/-- Modelled from the spec: the members of an object all of whose values are
strings, in document order; `none` when some value is not a string. -/
def jfieldsToPairs : JFields → Option (List (String × String))
  | .nil => some []
  | .cons k (.str v) rest => (jfieldsToPairs rest).map (fun l => (k, v) :: l)
  | .cons _ _ _ => none

/-- Modelled from the spec: unmarshalling a JSON value into a
`map[string]string` field: `null` leaves the map `nil`, an object of string
values inserts each member in document order into a fresh map, anything else
is a type error. -/
def decodeMap (j : Json) : Option (Option (List (String × String))) :=
  match j with
  | .null => some none
  | .obj fs =>
      (jfieldsToPairs fs).map (fun l =>
        some (l.foldl (fun m p => mapSet m p.1 p.2) []))
  | .str _ => none

/-- Modelled from the spec: reading a map-valued struct field from the
object; an absent member leaves the field at its zero value `nil`. -/
def readMapField (fs : JFields) (key : String) :
    Option (Option (List (String × String))) :=
  match jFindLast fs key with
  | none => some none
  | some j => decodeMap j

/-- Modelled from the spec: reading a string-valued struct field from the
object; absent or `null` leaves the field at its zero value `""`. -/
def readStrField (fs : JFields) (key : String) : Option String :=
  match jFindLast fs key with
  | none => some ""
  | some (.str s) => some s
  | some .null => some ""
  | some (.obj _) => none

/-- Modelled from the spec: `deserialize`, the inverse direction of the
serialization contract (`json.Unmarshal` of the document into a zero-valued
`Result`). -/
def deserialize : Json → Option Result
  | .obj fs =>
      match readMapField fs "links", readMapField fs "icon_links",
          readStrField fs "title", readStrField fs "profile_name",
          readStrField fs "profile_img" with
      | some li, some ic, some t, some pn, some pi =>
          some ⟨li, ic, t, pn, pi⟩
      | _, _, _, _, _ => none
  | _ => none

/-! ## The main pipeline

`main` takes the identifier `os.Args[1]`, crawls
`https://linktr.ee/<identifier>`, aborts on a crawl error, writes
`<result.ProfileName>.json` (aborting on a write error), and then, only if
`result.ProfileImg != ""`, downloads the image to `<identifier>.jpg`; a
download failure is only reported.  `filepath.Join(".", fileName)` cleans to
`fileName` itself for the plain relative names produced here, so the output
path is modelled as the file name.  The observable outcome is which files
were written (the JSON file with its content) and whether the download step
ran at all. -/

/-- The files written by one program run: the JSON file (name and content)
if the save succeeded, the image file name if the download ran and
succeeded, and whether the image download was attempted. -/
structure RunOutcome where
  jsonWrite : Option (String × String)
  imageWrite : Option String
  downloadAttempted : Bool
deriving DecidableEq, Repr

/-- `main` for identifier `arg`: crawl, then save, then conditionally
download.  `visitFails`, `saveFails`, `downloadFails` abstract the fallible
network and filesystem effects. -/
def runMain (arg : String) (visitFails : Bool) (doc : List Node)
    (saveFails downloadFails : Bool) : RunOutcome :=
  let crawled := crawlLinktreeProfile visitFails doc
  match crawled.2 with
  | some _ => ⟨none, none, false⟩
  | none =>
      let result := crawled.1
      if saveFails then ⟨none, none, false⟩
      else
        let afterSave : RunOutcome :=
          ⟨some (result.ProfileName ++ ".json", serialize result), none, false⟩
        if result.ProfileImg ≠ "" then
          if downloadFails then
            { afterSave with downloadAttempted := true }
          else
            { afterSave with
                imageWrite := some (arg ++ ".jpg"), downloadAttempted := true }
        else afterSave

/-- Scenario A of the spec: title `"Jane | Linktree"`, profile name
`"Jane Doe"`, one link button, no icons, no image. -/
def sampleA : Result :=
  ⟨some [("My Site", "https://example.com")], some [],
    "Jane | Linktree", "Jane Doe", ""⟩

/-! ## Helper lemmas about the map representation -/

theorem listLtChar_irrefl (as : List Char) : listLtChar as as = false := by
  induction as with
  | nil => rfl
  | cons a rest ih => simp [listLtChar, ih]

theorem listLtChar_asymm : ∀ as bs : List Char,
    listLtChar as bs = true → listLtChar bs as = false := by
  intro as
  induction as with
  | nil =>
      intro bs h
      cases bs with
      | nil => exact absurd h (by decide)
      | cons b bs' => rfl
  | cons a rest ih =>
      intro bs h
      cases bs with
      | nil => simp [listLtChar] at h
      | cons b bs' =>
          by_cases h1 : a.toNat < b.toNat
          · have h2 : ¬ b.toNat < a.toNat := by omega
            simp [listLtChar, h1, h2]
          · by_cases h2 : b.toNat < a.toNat
            · simp [listLtChar, h1, h2] at h
            · have h3 := ih bs' (by simpa [listLtChar, h1, h2] using h)
              simp [listLtChar, h1, h2, h3]

theorem strLt_irrefl (a : String) : strLt a a = false :=
  listLtChar_irrefl _

theorem strLt_asymm (a b : String) (h : strLt a b = true) :
    strLt b a = false :=
  listLtChar_asymm _ _ h

theorem strLt_ne (a b : String) (h : strLt a b = true) : a ≠ b := by
  intro e
  subst e
  rw [strLt_irrefl] at h
  exact Bool.false_ne_true h

theorem mapGet_mapSet_self (m : List (String × String)) (k v : String) :
    mapGet (mapSet m k v) k = some v := by
  induction m with
  | nil => simp [mapSet, mapGet]
  | cons p rest ih =>
      obtain ⟨k', v'⟩ := p
      by_cases h1 : strLt k k' = true
      · simp [mapSet, h1, mapGet]
      · by_cases h2 : k = k'
        · subst h2
          simp [mapSet, strLt_irrefl, mapGet]
        · have h3 : ¬ k' = k := fun e => h2 e.symm
          simp [mapSet, h1, h2, mapGet, h3, ih]

theorem mapGet_mapSet_ne (m : List (String × String)) (k k' v : String)
    (h : k ≠ k') : mapGet (mapSet m k' v) k = mapGet m k := by
  induction m with
  | nil => simp [mapSet, mapGet, Ne.symm h]
  | cons p rest ih =>
      obtain ⟨a, b⟩ := p
      by_cases h1 : strLt k' a = true
      · simp [mapSet, h1, mapGet, Ne.symm h]
      · by_cases h2 : k' = a
        · subst h2
          simp [mapSet, h1, strLt_irrefl, mapGet, Ne.symm h]
        · simp only [mapSet, if_neg h1, if_neg h2]
          by_cases h4 : a = k
          · simp [mapGet, h4]
          · simp [mapGet, h4, ih]

theorem mapSet_append (m : List (String × String)) (k v : String)
    (h : ∀ p ∈ m, strLt p.1 k = true) : mapSet m k v = m ++ [(k, v)] := by
  induction m with
  | nil => simp [mapSet]
  | cons p rest ih =>
      obtain ⟨k', v'⟩ := p
      have hk : strLt k' k = true := h (k', v') (by simp)
      have h1 : strLt k k' = false := strLt_asymm k' k hk
      have h2 : ¬ k = k' := fun e => (strLt_ne k' k hk) e.symm
      simp [mapSet, h1, h2, ih (fun p hp => h p (List.mem_cons_of_mem _ hp))]

theorem foldl_mapSet_sorted (l acc : List (String × String))
    (h : (acc ++ l).Pairwise (fun a b => strLt a.1 b.1 = true)) :
    l.foldl (fun m p => mapSet m p.1 p.2) acc = acc ++ l := by
  induction l generalizing acc with
  | nil => simp
  | cons p rest ih =>
      obtain ⟨k, v⟩ := p
      have hacc : ∀ q ∈ acc, strLt q.1 k = true :=
        fun q hq => (List.pairwise_append.mp h).2.2 q hq (k, v) (by simp)
      rw [List.foldl_cons]
      show List.foldl _ (mapSet acc k v) rest = _
      rw [mapSet_append acc k v hacc,
        ih (acc ++ [(k, v)]) (by simpa [List.append_assoc] using h),
        List.append_assoc]
      simp

theorem foldl_mapSet_nil (m : List (String × String)) (h : KeysSorted m) :
    m.foldl (fun acc p => mapSet acc p.1 p.2) [] = m := by
  simpa using foldl_mapSet_sorted m [] (by simpa [KeysSorted] using h)

/-! ## Helper lemmas about serialization and deserialization -/

theorem jfieldsToPairs_mapToJFields (m : List (String × String)) :
    jfieldsToPairs (mapToJFields m) = some m := by
  induction m with
  | nil => rfl
  | cons p rest ih =>
      obtain ⟨k, v⟩ := p
      simp [mapToJFields, jfieldsToPairs, ih]

theorem decodeMap_sorted (m : List (String × String)) (h : KeysSorted m) :
    decodeMap (optMapToJson (some m)) = some (some m) := by
  simp [decodeMap, optMapToJson, jfieldsToPairs_mapToJFields,
    foldl_mapSet_nil m h]

theorem readMap_links (r : Result) :
    readMapField (serializeFields r) "links" = decodeMap (optMapToJson r.Links) := rfl

theorem readMap_iconLinks (r : Result) :
    readMapField (serializeFields r) "icon_links"
      = decodeMap (optMapToJson r.IconLinks) := rfl

theorem readStr_title (r : Result) :
    readStrField (serializeFields r) "title" = some r.Title := rfl

theorem readStr_profileName (r : Result) :
    readStrField (serializeFields r) "profile_name" = some r.ProfileName := rfl

theorem readStr_profileImg (r : Result) :
    readStrField (serializeFields r) "profile_img" = some r.ProfileImg := rfl

/-! ## Helper lemmas about the extraction pass -/

theorem step_links_isSome (r : Result) (n : Node) (h : r.Links.isSome) :
    ((step r n).Links).isSome := by
  obtain ⟨m, hm⟩ := Option.isSome_iff_exists.mp h
  cases n with
  | titleNode t => simpa [step] using h
  | linkButton label href =>
      by_cases hc : label ≠ "" ∧ href ≠ "" <;> simp [step, hc, hm]
  | socialIcon iconTitle href =>
      by_cases hc : iconTitle ≠ "" ∧ href ≠ "" <;> simp [step, hc, hm]
  | profileTitle t => simpa [step] using h
  | profileImage src => by_cases hc : src ≠ "" <;> simp [step, hc, hm]

theorem step_iconLinks_isSome (r : Result) (n : Node) (h : r.IconLinks.isSome) :
    ((step r n).IconLinks).isSome := by
  obtain ⟨m, hm⟩ := Option.isSome_iff_exists.mp h
  cases n with
  | titleNode t => simpa [step] using h
  | linkButton label href =>
      by_cases hc : label ≠ "" ∧ href ≠ "" <;> simp [step, hc, hm]
  | socialIcon iconTitle href =>
      by_cases hc : iconTitle ≠ "" ∧ href ≠ "" <;> simp [step, hc, hm]
  | profileTitle t => simpa [step] using h
  | profileImage src => by_cases hc : src ≠ "" <;> simp [step, hc, hm]

theorem foldl_links_isSome (ns : List Node) :
    ∀ r : Result, r.Links.isSome → ((ns.foldl step r).Links).isSome := by
  induction ns with
  | nil => intro r h; simpa using h
  | cons n rest ih => intro r h; exact ih _ (step_links_isSome r n h)

theorem foldl_iconLinks_isSome (ns : List Node) :
    ∀ r : Result, r.IconLinks.isSome → ((ns.foldl step r).IconLinks).isSome := by
  induction ns with
  | nil => intro r h; simpa using h
  | cons n rest ih => intro r h; exact ih _ (step_iconLinks_isSome r n h)

theorem extract_links_isSome (doc : List Node) : ((extract doc).Links).isSome :=
  foldl_links_isSome doc initResult (by decide)

theorem extract_iconLinks_isSome (doc : List Node) :
    ((extract doc).IconLinks).isSome :=
  foldl_iconLinks_isSome doc initResult (by decide)

/-- After processing a suffix of the document containing no link-button node
with label `l` and a non-empty href, the binding of `l` in `Links` is
unchanged. -/
theorem foldl_links_get_preserved (post : List Node) (l h2 : String) :
    ∀ (r : Result) (m : List (String × String)), r.Links = some m →
      mapGet m l = some h2 →
      (∀ h', Node.linkButton l h' ∈ post → h' = "") →
      ∃ m', ((post.foldl step r).Links) = some m' ∧ mapGet m' l = some h2 := by
  induction post with
  | nil => intro r m hm hget _; exact ⟨m, by simpa using hm, hget⟩
  | cons n rest ih =>
      intro r m hm hget hpost
      have hrest : ∀ h', Node.linkButton l h' ∈ rest → h' = "" :=
        fun h' hmem => hpost h' (List.mem_cons_of_mem _ hmem)
      rw [List.foldl_cons]
      cases n with
      | titleNode t => exact ih _ m (by simp [step, hm]) hget hrest
      | profileTitle t => exact ih _ m (by simp [step, hm]) hget hrest
      | profileImage src =>
          by_cases hc : src ≠ ""
          · exact ih _ m (by simp [step, hc, hm]) hget hrest
          · exact ih _ m (by simp [step, hc, hm]) hget hrest
      | socialIcon iconTitle href =>
          by_cases hc : iconTitle ≠ "" ∧ href ≠ ""
          · exact ih _ m (by simp [step, hc, hm]) hget hrest
          · exact ih _ m (by simp [step, hc, hm]) hget hrest
      | linkButton label href =>
          by_cases hc : label ≠ "" ∧ href ≠ ""
          · have hne : label ≠ l := by
              intro e
              exact hc.2 (hpost href (by rw [← e]; exact List.mem_cons_self _ _))
            refine ih _ (mapSet m label href) (by simp [step, hc, hm]) ?_ hrest
            rw [mapGet_mapSet_ne m l label href (Ne.symm hne)]
            exact hget
          · exact ih _ m (by simp [step, hc, hm]) hget hrest

/-! ## The claims -/

/-- Claim C1: with the page visit succeeding, the crawl's validation step
fails exactly when the extracted title is empty or the extracted profile
name is empty; in particular it succeeds for every document yielding
non-empty values for both, regardless of whether the links, icon links or
profile image fields are empty. -/
theorem c1_validation_iff_mandatory_empty (doc : List Node) :
    ((crawlLinktreeProfile false doc).2).isSome = true ↔
      ((extract doc).Title = "" ∨ (extract doc).ProfileName = "") := by
  by_cases h : (extract doc).Title = "" ∨ (extract doc).ProfileName = ""
  · simp [crawlLinktreeProfile, h]
  · simp [crawlLinktreeProfile, h]

/-- Claim C4: a link-button node whose label text or href attribute is empty
is skipped: the record (in particular the `links` mapping and its size) is
unchanged and no error is raised (the callback is total). -/
theorem c4_empty_label_or_href_skipped (r : Result) (label href : String)
    (h : label = "" ∨ href = "") :
    step r (Node.linkButton label href) = r := by
  have hc : ¬ (label ≠ "" ∧ href ≠ "") := by
    rcases h with h | h <;> simp [h]
  simp [step, hc]

/-- Witness for C4 at a concrete node with an empty label. -/
theorem c4_witness :
    step initResult (Node.linkButton "" "https://example.com") = initResult :=
  c4_empty_label_or_href_skipped initResult "" "https://example.com" (Or.inl rfl)

/-- Claim C5: for two link-button nodes with the same non-empty label and
non-empty hrefs, the later one in document order wins: after the full
extraction pass its href is the value bound to that label in the final
`links` mapping (the suffix after the later node containing no effective
same-label link button, which is what makes it the later write). -/
theorem c5_last_write_wins (pre mid post : List Node) (l h1 h2 : String)
    (hl : l ≠ "") (_hh1 : h1 ≠ "") (hh2 : h2 ≠ "")
    (hpost : ∀ h', Node.linkButton l h' ∈ post → h' = "") :
    ∃ m, (extract (pre ++ Node.linkButton l h1 :: mid
        ++ Node.linkButton l h2 :: post)).Links = some m
      ∧ mapGet m l = some h2 := by
  unfold extract
  rw [List.foldl_append, List.foldl_cons, List.foldl_append, List.foldl_cons]
  have hpre : ((List.foldl step initResult pre).Links).isSome :=
    foldl_links_isSome pre initResult (by decide)
  have hA := step_links_isSome (List.foldl step initResult pre)
    (Node.linkButton l h1) hpre
  have hmid := foldl_links_isSome mid _ hA
  obtain ⟨m2, hm2⟩ := Option.isSome_iff_exists.mp hmid
  have hc : l ≠ "" ∧ h2 ≠ "" := ⟨hl, hh2⟩
  set rmid := List.foldl step
    (step (List.foldl step initResult pre) (Node.linkButton l h1)) mid with hrmid
  refine foldl_links_get_preserved post l h2 (step rmid (Node.linkButton l h2))
    (mapSet m2 l h2) ?_ (mapGet_mapSet_self m2 l h2) hpost
  simp only [step]
  rw [if_pos hc]
  dsimp only
  rw [hm2]
  rfl

/-- Witness for C5: two same-label link buttons, the second href wins. -/
theorem c5_witness :
    ∃ m, (extract ([] ++ Node.linkButton "a" "x" :: []
        ++ Node.linkButton "a" "y" :: [])).Links = some m
      ∧ mapGet m "a" = some "y" :=
  c5_last_write_wins [] [] [] "a" "x" "y" (by decide) (by decide) (by decide)
    (fun h' hmem => absurd hmem (List.not_mem_nil _))

/-- Claim C2 is false as stated: the serialized keys are the snake_case json
tags of the struct, not the camelCase names the claim lists.  At the
scenario-A record the top-level key list differs from the claimed one. -/
theorem c2_counterexample_camel_case_keys :
    (serializeFields sampleA).keys
      ≠ ["links", "iconLinks", "title", "profileName", "profileImageURL"] := by
  decide

/-- Claim C2 as amended: for every record the serializer emits the keys in
the stable order `links`, `icon_links`, `title`, `profile_name`,
`profile_img` (the struct's json tags), and the output is pretty-printed
with two-space indentation, as the fully rendered scenario-A record shows. -/
theorem c2_keys_snake_case_two_space_indent :
    (∀ r : Result, (serializeFields r).keys
        = ["links", "icon_links", "title", "profile_name", "profile_img"])
    ∧ serialize sampleA
      = "\x7b\n  \"links\": \x7b\n    \"My Site\": \"https://example.com\"\n  \x7d,\n  \"icon_links\": \x7b\x7d,\n  \"title\": \"Jane | Linktree\",\n  \"profile_name\": \"Jane Doe\",\n  \"profile_img\": \"\"\n\x7d" :=
  ⟨fun _ => rfl, rfl⟩

/-- Claim C3: whenever the run writes the JSON file, its name is the
extracted profile name plus `".json"`, and whenever it writes the image
file, its name is the supplied identifier plus `".jpg"` (not the extracted
profile name). -/
theorem c3_output_file_names (arg : String) (visitFails : Bool)
    (doc : List Node) (saveFails downloadFails : Bool) :
    (∀ n c, (runMain arg visitFails doc saveFails downloadFails).jsonWrite
        = some (n, c) →
      n = (crawlLinktreeProfile visitFails doc).1.ProfileName ++ ".json")
    ∧ (∀ m, (runMain arg visitFails doc saveFails downloadFails).imageWrite
        = some m → m = arg ++ ".jpg") := by
  constructor
  · intro n c hw
    simp only [runMain] at hw
    cases hcr : (crawlLinktreeProfile visitFails doc).2 with
    | some e => rw [hcr] at hw; simp at hw
    | none =>
        rw [hcr] at hw
        by_cases hs : saveFails
        · simp [hs] at hw
        · simp only [hs, if_false, Bool.false_eq_true] at hw
          split_ifs at hw <;> simp at hw <;> exact hw.1.symm
  · intro m hw
    simp only [runMain] at hw
    cases hcr : (crawlLinktreeProfile visitFails doc).2 with
    | some e => rw [hcr] at hw; simp at hw
    | none =>
        rw [hcr] at hw
        by_cases hs : saveFails
        · simp [hs] at hw
        · simp only [hs, if_false, Bool.false_eq_true] at hw
          split_ifs at hw <;> simp at hw
          exact hw.symm

/-- Witness for C3 at a concrete successful run. -/
theorem c3_witness :
    ("Jane Doe.json" : String)
        = (crawlLinktreeProfile false
            [Node.titleNode "Jane | Linktree", Node.profileTitle "Jane Doe",
              Node.profileImage "https://cdn.example/img.jpg"]).1.ProfileName
          ++ ".json"
    ∧ ("id.jpg" : String) = "id" ++ ".jpg" :=
  ⟨(c3_output_file_names "id" false
      [Node.titleNode "Jane | Linktree", Node.profileTitle "Jane Doe",
        Node.profileImage "https://cdn.example/img.jpg"] false false).1
      "Jane Doe.json"
      (serialize (crawlLinktreeProfile false
        [Node.titleNode "Jane | Linktree", Node.profileTitle "Jane Doe",
          Node.profileImage "https://cdn.example/img.jpg"]).1) (by decide),
    (c3_output_file_names "id" false
      [Node.titleNode "Jane | Linktree", Node.profileTitle "Jane Doe",
        Node.profileImage "https://cdn.example/img.jpg"] false false).2
      "id.jpg" (by decide)⟩

/-- Claim C6 (round-trip): for any record with non-empty mandatory fields,
initialized (canonically represented) mappings and arbitrary image URL,
deserializing the serialized document yields the record back. -/
theorem c6_round_trip (r : Result) (mL mI : List (String × String))
    (hL : r.Links = some mL) (hI : r.IconLinks = some mI)
    (hsL : KeysSorted mL) (hsI : KeysSorted mI)
    (ht : r.Title ≠ "") (hp : r.ProfileName ≠ "") :
    deserialize (serializeJson r) = some r := by
  obtain ⟨oL, oI, t, pn, pi⟩ := r
  have hL' : oL = some mL := hL
  have hI' : oI = some mI := hI
  subst hL' hI'
  simp only [serializeJson, deserialize, readMap_links, readMap_iconLinks,
    readStr_title, readStr_profileName, readStr_profileImg]
  simp [decodeMap_sorted mL hsL, decodeMap_sorted mI hsI]

/-- Witness for C6 at a concrete record with two links and no icons. -/
theorem c6_witness :
    deserialize (serializeJson
        ⟨some [("a", "1"), ("b", "2")], some [], "T", "P", "u"⟩)
      = some ⟨some [("a", "1"), ("b", "2")], some [], "T", "P", "u"⟩ :=
  c6_round_trip ⟨some [("a", "1"), ("b", "2")], some [], "T", "P", "u"⟩
    [("a", "1"), ("b", "2")] [] rfl rfl (by decide) (by decide)
    (by decide) (by decide)

/-- Claim C7: the image download step runs only when the extracted
`ProfileImg` is non-empty, and a download failure only drops the image
file: the run with a failing download is the run with a succeeding one
minus the image write — the JSON file is untouched and the program still
completes normally. -/
theorem c7_download_isolated (arg : String) (visitFails : Bool)
    (doc : List Node) (saveFails : Bool) :
    ((runMain arg visitFails doc saveFails true).downloadAttempted = true →
        (crawlLinktreeProfile visitFails doc).1.ProfileImg ≠ "")
    ∧ runMain arg visitFails doc saveFails true
        = { runMain arg visitFails doc saveFails false with
              imageWrite := none } := by
  simp only [runMain]
  cases hcr : (crawlLinktreeProfile visitFails doc).2 with
  | some e => simp
  | none =>
      by_cases hs : saveFails
      · simp [hs]
      · by_cases himg : (crawlLinktreeProfile visitFails doc).1.ProfileImg ≠ ""
        · simp [hs, himg]
        · simp [hs, himg]

/-- Witness for C7 at a concrete run whose download fails. -/
theorem c7_witness :
    (crawlLinktreeProfile false
        [Node.titleNode "T", Node.profileTitle "P",
          Node.profileImage "u"]).1.ProfileImg ≠ "" :=
  (c7_download_isolated "id" false
      [Node.titleNode "T", Node.profileTitle "P", Node.profileImage "u"]
      false).1 (by decide)

/-- Claim C8: if the page visit fails, or validation fails because a
mandatory field is empty after extraction, the pipeline halts before any
file write: neither the JSON file nor the image file is written. -/
theorem c8_fatal_before_writes (arg : String) (visitFails : Bool)
    (doc : List Node) (saveFails downloadFails : Bool)
    (h : visitFails = true ∨ (extract doc).Title = ""
        ∨ (extract doc).ProfileName = "") :
    (runMain arg visitFails doc saveFails downloadFails).jsonWrite = none
    ∧ (runMain arg visitFails doc saveFails downloadFails).imageWrite
        = none := by
  have hcr : ((crawlLinktreeProfile visitFails doc).2).isSome = true := by
    rcases h with h | h | h
    · subst h; simp [crawlLinktreeProfile]
    · cases visitFails
      · simp [crawlLinktreeProfile, h]
      · simp [crawlLinktreeProfile]
    · cases visitFails
      · simp [crawlLinktreeProfile, h]
      · simp [crawlLinktreeProfile]
  obtain ⟨e, he⟩ := Option.isSome_iff_exists.mp hcr
  simp [runMain, he]

/-- Witness for C8 at a document missing the profile-title node (the
mandatory profile name stays empty). -/
theorem c8_witness :
    (runMain "id" false [Node.titleNode "T"] false false).jsonWrite = none
    ∧ (runMain "id" false [Node.titleNode "T"] false false).imageWrite
        = none :=
  c8_fatal_before_writes "id" false [Node.titleNode "T"] false false
    (Or.inr (Or.inr (by decide)))

/-- Claim C9: the `links` and `iconLinks` mappings are always initialized,
never `nil`: the crawl starts them as empty maps, every callback preserves
initialization through the whole extraction pass, and serializing a record
with no link or icon matches emits well-formed empty JSON objects (rendered
as braces, not `null`) for both fields. -/
theorem c9_maps_always_initialized (r : Result) (n : Node) (doc : List Node)
    (h1 : r.Links.isSome = true) (h2 : r.IconLinks.isSome = true) :
    (initResult.Links = some [] ∧ initResult.IconLinks = some [])
    ∧ ((step r n).Links.isSome = true ∧ (step r n).IconLinks.isSome = true)
    ∧ ((extract doc).Links.isSome = true
        ∧ (extract doc).IconLinks.isSome = true)
    ∧ serialize (extract [])
        = "\x7b\n  \"links\": \x7b\x7d,\n  \"icon_links\": \x7b\x7d,\n  \"title\": \"\",\n  \"profile_name\": \"\",\n  \"profile_img\": \"\"\n\x7d" :=
  ⟨⟨rfl, rfl⟩,
    ⟨step_links_isSome r n h1, step_iconLinks_isSome r n h2⟩,
    ⟨extract_links_isSome doc, extract_iconLinks_isSome doc⟩,
    rfl⟩

/-- Witness for C9 at a concrete record and node. -/
theorem c9_witness :
    ((step initResult (Node.linkButton "a" "h")).Links).isSome = true :=
  (c9_maps_always_initialized initResult (Node.linkButton "a" "h") []
      (by decide) (by decide)).2.1.1

/-- Claim C10: whenever the crawl returns an error — visit failure or empty
mandatory field after extraction — the record returned alongside it is the
zero-value record (empty strings, `nil` maps), never partially populated
data. -/
theorem c10_error_returns_zero_record (visitFails : Bool) (doc : List Node)
    (h : ((crawlLinktreeProfile visitFails doc).2).isSome = true) :
    (crawlLinktreeProfile visitFails doc).1 = zeroResult := by
  cases visitFails
  · by_cases hv : (extract doc).Title = "" ∨ (extract doc).ProfileName = ""
    · simp [crawlLinktreeProfile, hv]
    · simp [crawlLinktreeProfile, hv] at h
  · simp [crawlLinktreeProfile]

/-- Witness for C10 at a document whose extraction leaves the mandatory
fields empty. -/
theorem c10_witness :
    (crawlLinktreeProfile false [Node.linkButton "a" "h"]).1 = zeroResult :=
  c10_error_returns_zero_record false [Node.linkButton "a" "h"] (by decide)

end Linktree
